import Mathlib

/-!
Shallow embedding of the environment-activation logic of `src/extension.ts`
(okteto remote-kubernetes extension).

The repository ships only `src/extension.ts`; the collaborator modules it
imports (`okteto.ts`, `kubernetes.ts`, `manifest.ts`) are not present, so
their *interfaces* are modelled from the spec where noted, while every piece
of control flow below is translated from `extension.ts` itself.

Modelling conventions:
- asynchronous calls that can reject are modelled as `Except String α`
  (the string is the rejection's `err.message`);
- the sequence of `okteto.getState(namespace, name)` results is a function
  `polls : Nat → Except String PollResult` giving the result of the query
  performed on tick `i` (ticks are 0-indexed);
- UI calls (`showErrorMessage`, `showInformationMessage`, `progress.report`)
  are recorded in trace structures instead of performed;
- wall-clock time (`sleep(1000)`) is not modelled; a tick simply is one loop
  iteration, as in the spec's glossary.
-/

namespace Okteto

/-- Modelled from the spec: `okteto.ts` is not under `src/`. The loop in
`extension.ts` compares `res.state` against two fixed raw state tags
`okteto.state.ready` and `okteto.state.failed`; the embedding only relies on
these being two distinct string constants. -/
def state.ready : String := "ready"

/-- Modelled from the spec: the raw tag for the orchestrator's failed state. -/
def state.failed : String := "failed"

/-- Modelled from the spec: the `{state, message}` record returned by
`okteto.getState` (the spec's `PollResult`: message only meaningful on
failure). -/
structure PollResult where
  state : String
  message : String
deriving DecidableEq, Repr

/-- Outcome of one run of the `waitForFinalState` loop.
`done r m` is the `{result: r, message: m}` value returned by the function;
`exn e` means the `await okteto.getState(...)` on some tick rejected with
message `e`, which propagates out of the loop (the loop body has no
`try`/`catch`); `fuelOut` is the model's marker for exhausted fuel and is
unreachable from `waitForFinalState` since the tick cap is `5 * 60 > 0`. -/
inductive LoopOutcome
  | done (result : Bool) (message : String)
  | exn (e : String)
  | fuelOut
deriving DecidableEq, Repr

/-- Trace of one run of the polling loop of `waitForFinalState`:
the returned (or thrown) outcome, the number of `okteto.getState` queries
performed, the raw tags for which a `progress.report` was emitted (in order),
and the raw tags observed by the performed queries (in order).
The initial `progress.report({message: "Launching your development
environment..."})` before the loop is not tag-keyed and is not part of
`emitted`. -/
structure LoopTrace where
  outcome : LoopOutcome
  queries : Nat
  emitted : List String
  observed : List String
deriving DecidableEq, Repr

/-- The body of `waitForFinalState`'s `while (true)` loop
(src/extension.ts:184-205), as a fuel-indexed recursion.

`fuel` is `timeout - counter` where `counter` is the source's tick counter:
the source increments `counter` after a non-terminal poll and returns the
timed-out result when `counter === timeout`, which here is the `fuel = 1`
iteration (`if g = 0` below after matching `fuel = g + 1`).

`seen` is the source's `seen` map: membership of a raw tag models
`seen.has(res.state)`, and `seen.set(res.state, true)` is consing the tag.
A fresh tag triggers `progress.report({message: messages.get(res.state)})`;
`emitted` records the tag the message was looked up by (the dedup key). -/
def waitForFinalStateAux (polls : Nat → Except String PollResult) :
    Nat → List String → Nat → LoopTrace
  | 0, _, _ => ⟨.fuelOut, 0, [], []⟩
  | g + 1, seen, tick =>
    match polls tick with
    | .error e => ⟨.exn e, 1, [], []⟩
    | .ok res =>
      let em : List String := if res.state ∈ seen then [] else [res.state]
      if res.state = state.ready then
        ⟨.done true "", 1, em, [res.state]⟩
      else if res.state = state.failed then
        ⟨.done false res.message, 1, em, [res.state]⟩
      else if g = 0 then
        ⟨.done false "task didn't finish in 5 minutes", 1, em, [res.state]⟩
      else
        let tr := waitForFinalStateAux polls g (res.state :: seen) (tick + 1)
        ⟨tr.outcome, tr.queries + 1, em ++ tr.emitted, res.state :: tr.observed⟩

/-- `waitForFinalState` (src/extension.ts:178-206): `counter` starts at `0`,
`timeout = 5 * 60`, `seen` starts empty, and polling starts at tick `0`. -/
def waitForFinalState (polls : Nat → Except String PollResult) : LoopTrace :=
  waitForFinalStateAux polls (5 * 60) [] 0

/-- `true` iff this tick's query succeeded and reported a state that is
neither `okteto.state.ready` nor `okteto.state.failed`, i.e. the loop's two
early returns do not fire and the loop continues. -/
def isNonTerminalOk : Except String PollResult → Bool
  | .error _ => false
  | .ok res => !(res.state == state.ready) && !(res.state == state.failed)

/-- Trace of one run of `waitForUp` (src/extension.ts:160-176).
`thrown` is the message of the error thrown out of `waitForUp` (from the
explicit `throw` when `result.result` is false, or from the rejected
`getState` propagating), `none` on success. `downCommandInvocations` counts
executions of the `okteto.down` command from the `onCancellationRequested`
handler. -/
structure UpTrace where
  thrown : Option String
  downCommandInvocations : Nat
  queries : Nat
deriving DecidableEq, Repr

/-- `waitForUp` (src/extension.ts:160-176). `cancelAt = some k` models the
progress notification's cancellation signal being raised between tick `k`
and tick `k + 1`; the registered `onCancellationRequested` handler then runs
once, executing the `okteto.down` command (and a telemetry track). The
polling loop itself never reads the cancellation token, so the loop's trace
is `waitForFinalState polls` whatever `cancelAt` is. -/
def waitForUp (polls : Nat → Except String PollResult)
    (cancelAt : Option Nat) : UpTrace :=
  let td : Nat := match cancelAt with | some _ => 1 | none => 0
  let tr := waitForFinalState polls
  match tr.outcome with
  | .done true _ => ⟨none, td, tr.queries⟩
  | .done false msg => ⟨some ("Okteto: Up command failed: " ++ msg), td, tr.queries⟩
  | .exn e => ⟨some e, td, tr.queries⟩
  | .fuelOut => ⟨none, td, tr.queries⟩

/-- Modelled from the spec: the manifest record loaded by
`manifest.getManifest` (`manifest.ts` is not under `src/`): a required
`name` and an optional `namespace` (the spec's `runtime` field plays no
role in the up path and is omitted). `none` models the JS-falsy
`m.namespace` that `upCommand` tests with `!m.namespace`. -/
structure Manifest where
  name : String
  «namespace» : Option String
deriving DecidableEq, Repr

/-- Result of the manifest-load → context-resolution → launch segment of
`upCommand` (src/extension.ts:123-148). `configError m` is the
`onOktetoFailed` message shown when `manifest.getManifest` throws (no launch
happens); `contextError m` is the `showErrorMessage` shown when the manifest
has no namespace and `kubernetes.getCurrentNamespace` returns nothing (no
launch happens); `launched ns name` records that `okteto.up(manifestPath,
ns, name, kubeconfig)` was invoked. -/
inductive UpOutcome
  | configError (message : String)
  | contextError (message : String)
  | launched (ns : String) (name : String)
deriving DecidableEq, Repr

/-- The core segment of `upCommand` (src/extension.ts:123-148): the steps
before it (workspace picker, CLI install check, manifest picker) are UI glue
that only produce `manifestPath`, and the steps after `okteto.up`
(`waitForUp`, `finalizeUp`) are modelled separately above.
`loadResult` models `await manifest.getManifest(manifestPath)`
(`.error e` = the call threw with message `e`); `currentNamespace` models
`kubernetes.getCurrentNamespace(kubeconfig)` (`none` = JS-falsy return,
spec: returns nil when no active context is set). -/
def upCommand (loadResult : Except String Manifest)
    (currentNamespace : Option String) : UpOutcome :=
  match loadResult with
  | .error e => .configError ("Okteto: Up failed to load your Okteto manifest: " ++ e)
  | .ok m =>
    match m.«namespace» with
    | some ns => .launched ns m.name
    | none =>
      match currentNamespace with
      | none => .contextError "Couldn't detect your current Kubernetes context."
      | some ns => .launched ns m.name

/-- Trace of one run of `installCmd` (src/extension.ts:49-79):
which `showErrorMessage` was displayed (if any), which
`showInformationMessage` was displayed (if any), and the message of the
error thrown to the caller (if any). -/
structure InstallTrace where
  errorMessageShown : Option String
  infoMessageShown : Option String
  thrown : Option String
deriving DecidableEq, Repr

/-- `installCmd(upgrade, handleErr)` (src/extension.ts:49-79).
`installResult` models `await okteto.install()` (`.error e` = rejection
with message `e`). The `withProgress` body catches the rejection: with
`handleErr` it shows an error message and the body resolves, so the
`showInformationMessage(success)` after `withProgress` still runs; without
`handleErr` the body rethrows, `withProgress` rejects, and the success
message line is never reached. -/
def installCmd (upgrade : Bool) (handleErr : Bool)
    (installResult : Except String Unit) : InstallTrace :=
  let success := if upgrade then "Okteto was successfully upgraded"
                 else "Okteto was successfully installed"
  match installResult with
  | .ok _ => ⟨none, some success, none⟩
  | .error e =>
    if handleErr then
      ⟨some ("Okteto was not installed: " ++ e), some success, none⟩
    else
      ⟨none, none, some ("Okteto was not installed: " ++ e)⟩

/-- Trace of the teardown step of `downCommand` (src/extension.ts:258-267):
the value of the module-level `activeManifest` variable after the step, and
the info/error message displayed. -/
structure DownTrace where
  activeManifest : String
  infoMessageShown : Option String
  errorMessageShown : Option String
deriving DecidableEq, Repr

/-- The teardown step of `downCommand` (src/extension.ts:258-267), given the
current value of the module-level `activeManifest` and the result of
`await okteto.down(manifestPath, m.namespace, kubeconfig)` (`.error e` =
rejection with message `e`). On success `activeManifest` is set to `''`;
the `catch` branch leaves `activeManifest` untouched. -/
def downCommand (activeManifest : String)
    (downResult : Except String Unit) : DownTrace :=
  match downResult with
  | .ok _ => ⟨"", some "Okteto environment deactivated", none⟩
  | .error e => ⟨activeManifest, none, some ("Okteto: Down failed: " ++ e)⟩

/-- `getManifestOrAsk` (src/extension.ts:270-282): when the module-level
`activeManifest` is JS-truthy (a non-empty string) it is returned without
prompting; otherwise the manifest picker's choice (`picked`, `none` when
dismissed) is returned. -/
def getManifestOrAsk (activeManifest : String)
    (picked : Option String) : Option String :=
  if activeManifest ≠ "" then some activeManifest else picked

/-- Poll sequence: one non-terminal tick, then ready forever. -/
def pollsCancelCex : Nat → Except String PollResult :=
  fun i => if i = 0 then .ok ⟨"activating", ""⟩ else .ok ⟨"ready", ""⟩

/-- Poll sequence: the tick-0 query itself fails, ready forever after. -/
def pollsTransportCex : Nat → Except String PollResult :=
  fun i => if i = 0 then .error "connection refused" else .ok ⟨"ready", ""⟩

/-- Poll sequence: one non-terminal tick, then the query fails forever. -/
def pollsTransportW : Nat → Except String PollResult :=
  fun i => if i = 0 then .ok ⟨"activating", ""⟩ else .error "econnrefused"

/-- Poll sequence: non-terminal forever (never ready, never failed). -/
def pollsTimeoutW : Nat → Except String PollResult :=
  fun _ => .ok ⟨"activating", ""⟩

/-- Poll sequence: one non-terminal tick, then ready forever. -/
def pollsReadyW : Nat → Except String PollResult :=
  fun i => if i = 0 then .ok ⟨"activating", ""⟩ else .ok ⟨"ready", ""⟩

/-- Poll sequence of the spec scenario `[Launching, Failed("crash loop")]`. -/
def pollsFailedW : Nat → Except String PollResult :=
  fun i => if i = 0 then .ok ⟨"activating", ""⟩ else .ok ⟨"failed", "crash loop"⟩

end Okteto

namespace Okteto

theorem isNonTerminalOk_iff {x : Except String PollResult} :
    isNonTerminalOk x = true ↔
      ∃ res, x = .ok res ∧ res.state ≠ state.ready ∧ res.state ≠ state.failed := by
  cases x <;> simp [isNonTerminalOk]

/-- Unfolding of one non-terminal, non-final loop iteration. -/
theorem waitForFinalStateAux_step (polls : Nat → Except String PollResult)
    (g seen tick : _) (res : PollResult) (hp : polls tick = .ok res)
    (h1 : res.state ≠ state.ready) (h2 : res.state ≠ state.failed) (hg : g ≠ 0) :
    waitForFinalStateAux polls (g + 1) seen tick =
      ⟨(waitForFinalStateAux polls g (res.state :: seen) (tick + 1)).outcome,
       (waitForFinalStateAux polls g (res.state :: seen) (tick + 1)).queries + 1,
       (if res.state ∈ seen then [] else [res.state])
         ++ (waitForFinalStateAux polls g (res.state :: seen) (tick + 1)).emitted,
       res.state :: (waitForFinalStateAux polls g (res.state :: seen) (tick + 1)).observed⟩ := by
  simp [waitForFinalStateAux, hp, h1, h2, hg]

/-- A successful query reporting the ready tag returns immediately. -/
theorem waitForFinalStateAux_ready (polls : Nat → Except String PollResult)
    (g seen tick : _) (res : PollResult) (hp : polls tick = .ok res)
    (hr : res.state = state.ready) :
    (waitForFinalStateAux polls (g + 1) seen tick).outcome = .done true ""
      ∧ (waitForFinalStateAux polls (g + 1) seen tick).queries = 1 := by
  simp [waitForFinalStateAux, hp, hr]

/-- A successful query reporting the failed tag returns immediately,
carrying the poll result's message. -/
theorem waitForFinalStateAux_failed (polls : Nat → Except String PollResult)
    (g seen tick : _) (res : PollResult) (hp : polls tick = .ok res)
    (hr : res.state = state.failed) :
    (waitForFinalStateAux polls (g + 1) seen tick).outcome = .done false res.message
      ∧ (waitForFinalStateAux polls (g + 1) seen tick).queries = 1 := by
  have hne : state.failed ≠ state.ready := by decide
  simp [waitForFinalStateAux, hp, hr, hne]

/-- A rejected query propagates immediately. -/
theorem waitForFinalStateAux_error (polls : Nat → Except String PollResult)
    (g seen tick : _) (e : String) (hp : polls tick = .error e) :
    (waitForFinalStateAux polls (g + 1) seen tick).outcome = .exn e
      ∧ (waitForFinalStateAux polls (g + 1) seen tick).queries = 1 := by
  simp [waitForFinalStateAux, hp]

/-- Skipping a block of `k` consecutive non-terminal successful ticks: the
loop's outcome is that of the loop restarted at tick `tick + k` with the
remaining fuel and some accumulated seen set, and exactly `k` extra queries
are performed. -/
theorem waitForFinalStateAux_skip (polls : Nat → Except String PollResult) :
    ∀ (k f tick : Nat) (seen : List String),
      (∀ i, i < k → isNonTerminalOk (polls (tick + i)) = true) → k < f →
      ∃ seen',
        (waitForFinalStateAux polls f seen tick).outcome
            = (waitForFinalStateAux polls (f - k) seen' (tick + k)).outcome
          ∧ (waitForFinalStateAux polls f seen tick).queries
            = k + (waitForFinalStateAux polls (f - k) seen' (tick + k)).queries := by
  intro k
  induction k with
  | zero => intro f tick seen _ _; exact ⟨seen, by simp⟩
  | succ k ih =>
    intro f tick seen h hk
    obtain ⟨g, rfl⟩ : ∃ g, f = g + 1 := ⟨f - 1, by omega⟩
    obtain ⟨res, hp, hr, hf⟩ := isNonTerminalOk_iff.mp
      (by simpa using h 0 (Nat.succ_pos k))
    have hg : g ≠ 0 := by omega
    have hstep := waitForFinalStateAux_step polls g seen tick res hp hr hf hg
    have h' : ∀ i, i < k → isNonTerminalOk (polls (tick + 1 + i)) = true := by
      intro i hi
      have := h (i + 1) (by omega)
      simpa [Nat.add_assoc, Nat.add_comm 1 i] using this
    obtain ⟨seen', ho, hq⟩ := ih g (tick + 1) (res.state :: seen) h' (by omega)
    have ho' : (waitForFinalStateAux polls (g + 1) seen tick).outcome
        = (waitForFinalStateAux polls g (res.state :: seen) (tick + 1)).outcome := by
      rw [hstep]
    have hq' : (waitForFinalStateAux polls (g + 1) seen tick).queries
        = (waitForFinalStateAux polls g (res.state :: seen) (tick + 1)).queries + 1 := by
      rw [hstep]
    refine ⟨seen', ?_, ?_⟩
    · rw [ho', ho, show g + 1 - (k + 1) = g - k by omega,
        show tick + 1 + k = tick + (k + 1) by omega]
    · rw [hq', hq, show g + 1 - (k + 1) = g - k by omega,
        show tick + 1 + k = tick + (k + 1) by omega]
      omega

/-- If every tick in the fuel budget is non-terminal, the loop returns the
timed-out result after performing exactly `f` queries. -/
theorem waitForFinalStateAux_timeout (polls : Nat → Except String PollResult) :
    ∀ (f : Nat), f ≠ 0 → ∀ (tick : Nat) (seen : List String),
      (∀ i, i < f → isNonTerminalOk (polls (tick + i)) = true) →
      (waitForFinalStateAux polls f seen tick).outcome
          = .done false "task didn't finish in 5 minutes"
        ∧ (waitForFinalStateAux polls f seen tick).queries = f := by
  intro f
  induction f with
  | zero => intro h; exact absurd rfl h
  | succ g ih =>
    intro _ tick seen h
    obtain ⟨res, hp, hr, hf⟩ := isNonTerminalOk_iff.mp
      (by simpa using h 0 (Nat.succ_pos g))
    by_cases hg : g = 0
    · subst hg
      simp [waitForFinalStateAux, hp, hr, hf]
    · have hstep := waitForFinalStateAux_step polls g seen tick res hp hr hf hg
      have h' : ∀ i, i < g → isNonTerminalOk (polls (tick + 1 + i)) = true := by
        intro i hi
        have := h (i + 1) (by omega)
        simpa [Nat.add_assoc, Nat.add_comm 1 i] using this
      obtain ⟨ho, hq⟩ := ih hg (tick + 1) (res.state :: seen) h'
      have ho' : (waitForFinalStateAux polls (g + 1) seen tick).outcome
          = (waitForFinalStateAux polls g (res.state :: seen) (tick + 1)).outcome := by
        rw [hstep]
      have hq' : (waitForFinalStateAux polls (g + 1) seen tick).queries
          = (waitForFinalStateAux polls g (res.state :: seen) (tick + 1)).queries + 1 := by
        rw [hstep]
      exact ⟨ho'.trans ho, by rw [hq', hq]⟩

/-- The emitted progress tags are duplicate-free, and a tag is emitted
exactly when it is observed during the run and was not already in the
initial seen set. -/
theorem waitForFinalStateAux_dedup (polls : Nat → Except String PollResult) :
    ∀ (f tick : Nat) (seen : List String),
      (waitForFinalStateAux polls f seen tick).emitted.Nodup
      ∧ ∀ t, t ∈ (waitForFinalStateAux polls f seen tick).emitted ↔
          t ∈ (waitForFinalStateAux polls f seen tick).observed ∧ t ∉ seen := by
  intro f
  induction f with
  | zero => intro tick seen; simp [waitForFinalStateAux]
  | succ g ih =>
    intro tick seen
    cases hp : polls tick with
    | error e => simp [waitForFinalStateAux, hp]
    | ok res =>
      by_cases h1 : res.state = state.ready
      · obtain ⟨-, -⟩ := waitForFinalStateAux_ready polls g seen tick res hp h1
        by_cases hm : res.state ∈ seen <;>
          simp_all [waitForFinalStateAux, hp, h1, hm]
      · by_cases h2 : res.state = state.failed
        · by_cases hm : res.state ∈ seen <;>
            simp_all [waitForFinalStateAux, hp, h1, h2, hm]
        · by_cases hg : g = 0
          · subst hg
            by_cases hm : res.state ∈ seen <;>
              simp_all [waitForFinalStateAux, hp, h1, h2, hm]
          · have hstep := waitForFinalStateAux_step polls g seen tick res hp h1 h2 hg
            obtain ⟨ihnd, ihmem⟩ := ih (tick + 1) (res.state :: seen)
            have hem : (waitForFinalStateAux polls (g + 1) seen tick).emitted
                = (if res.state ∈ seen then [] else [res.state])
                  ++ (waitForFinalStateAux polls g (res.state :: seen) (tick + 1)).emitted := by
              rw [hstep]
            have hob : (waitForFinalStateAux polls (g + 1) seen tick).observed
                = res.state
                  :: (waitForFinalStateAux polls g (res.state :: seen) (tick + 1)).observed := by
              rw [hstep]
            rw [hem, hob]
            by_cases hm : res.state ∈ seen
            · simp only [if_pos hm, List.nil_append]
              refine ⟨ihnd, fun t => ?_⟩
              have h3 := ihmem t
              simp only [List.mem_cons] at h3 ⊢
              rw [h3]
              by_cases hts : t = res.state
              · subst hts; tauto
              · tauto
            · simp only [if_neg hm, List.singleton_append]
              have hrs : res.state
                  ∉ (waitForFinalStateAux polls g (res.state :: seen) (tick + 1)).emitted := by
                intro hc
                exact ((ihmem res.state).mp hc).2 (List.mem_cons_self _ _)
              refine ⟨List.nodup_cons.mpr ⟨hrs, ihnd⟩, fun t => ?_⟩
              have h3 := ihmem t
              simp only [List.mem_cons] at h3 ⊢
              rw [h3]
              by_cases hts : t = res.state
              · subst hts; tauto
              · tauto

/-- C2: if no tick among the first 300 reports the ready or failed state
(and no query rejects), the loop performs exactly 300 queries — the counter
is never reset mid-loop — and returns the timed-out result whose message is
exactly "task didn't finish in 5 minutes". -/
theorem waitForFinalState_timeout (polls : Nat → Except String PollResult)
    (h : ∀ i, i < 300 → isNonTerminalOk (polls i) = true) :
    (waitForFinalState polls).outcome = .done false "task didn't finish in 5 minutes"
      ∧ (waitForFinalState polls).queries = 300 := by
  have hmain := waitForFinalStateAux_timeout polls (5 * 60) (by decide) 0 []
    (by intro i hi; simpa using h i (by omega))
  exact hmain

set_option maxRecDepth 8000 in
/-- Witness for C2: a concrete always-non-terminal poll sequence reaches the
timed-out result after exactly 300 queries. -/
theorem waitForFinalState_timeout_witness :
    (∀ i, i < 300 → isNonTerminalOk (pollsTimeoutW i) = true)
      ∧ ((waitForFinalState pollsTimeoutW).outcome
            = .done false "task didn't finish in 5 minutes"
          ∧ (waitForFinalState pollsTimeoutW).queries = 300) :=
  ⟨by decide, waitForFinalState_timeout pollsTimeoutW (by decide)⟩

/-- C3: per activation attempt, a progress message is emitted at most once
per distinct raw state tag (the emitted list is duplicate-free), and a tag
gets its progress message exactly when it is observed by some performed
query (the first observation emits, later ones do not). -/
theorem waitForFinalState_progress_dedup (polls : Nat → Except String PollResult) :
    (waitForFinalState polls).emitted.Nodup
      ∧ ∀ t, t ∈ (waitForFinalState polls).emitted
          ↔ t ∈ (waitForFinalState polls).observed := by
  obtain ⟨hnd, hmem⟩ := waitForFinalStateAux_dedup polls (5 * 60) 0 []
  exact ⟨hnd, fun t => by simpa using hmem t⟩

/-- C4: if the query on tick `k` returns the ready state (after `k`
non-terminal ticks, within the tick cap), the loop returns the ready result
on tick `k` and performs no query after tick `k` (exactly `k + 1` queries). -/
theorem waitForFinalState_ready_stops (polls : Nat → Except String PollResult)
    (k : Nat) (res : PollResult)
    (h1 : ∀ i, i < k → isNonTerminalOk (polls i) = true)
    (h2 : polls k = .ok res) (h3 : res.state = state.ready) (h4 : k < 300) :
    (waitForFinalState polls).outcome = .done true ""
      ∧ (waitForFinalState polls).queries = k + 1 := by
  obtain ⟨seen', ho, hq⟩ := waitForFinalStateAux_skip polls k (5 * 60) 0 []
    (by intro i hi; simpa using h1 i hi) (by omega)
  obtain ⟨g, hg⟩ : ∃ g, 5 * 60 - k = g + 1 := ⟨5 * 60 - k - 1, by omega⟩
  rw [hg] at ho hq
  have hrd := waitForFinalStateAux_ready polls g seen' (0 + k) res
    (by simpa using h2) h3
  refine ⟨ho.trans hrd.1, ?_⟩
  rw [hrd.2] at hq
  exact hq

/-- Witness for C4: with the poll sequence `[activating, ready, ...]` the
loop ends on tick 1 with the ready result after exactly 2 queries. -/
theorem waitForFinalState_ready_stops_witness :
    ((∀ i, i < 1 → isNonTerminalOk (pollsReadyW i) = true)
        ∧ pollsReadyW 1 = .ok ⟨"ready", ""⟩
        ∧ (⟨"ready", ""⟩ : PollResult).state = state.ready ∧ 1 < 300)
      ∧ ((waitForFinalState pollsReadyW).outcome = .done true ""
          ∧ (waitForFinalState pollsReadyW).queries = 1 + 1) :=
  ⟨⟨by decide, rfl, rfl, by decide⟩,
    waitForFinalState_ready_stops pollsReadyW 1 ⟨"ready", ""⟩
      (by decide) rfl rfl (by decide)⟩

/-- C5: if the query on tick `k` returns the failed state with message `m`
(after `k` non-terminal ticks, within the tick cap), the loop returns the
failed result on tick `k` carrying exactly `m`, and performs no query after
tick `k` (exactly `k + 1` queries). -/
theorem waitForFinalState_failed_stops (polls : Nat → Except String PollResult)
    (k : Nat) (res : PollResult)
    (h1 : ∀ i, i < k → isNonTerminalOk (polls i) = true)
    (h2 : polls k = .ok res) (h3 : res.state = state.failed) (h4 : k < 300) :
    (waitForFinalState polls).outcome = .done false res.message
      ∧ (waitForFinalState polls).queries = k + 1 := by
  obtain ⟨seen', ho, hq⟩ := waitForFinalStateAux_skip polls k (5 * 60) 0 []
    (by intro i hi; simpa using h1 i hi) (by omega)
  obtain ⟨g, hg⟩ : ∃ g, 5 * 60 - k = g + 1 := ⟨5 * 60 - k - 1, by omega⟩
  rw [hg] at ho hq
  have hrd := waitForFinalStateAux_failed polls g seen' (0 + k) res
    (by simpa using h2) h3
  refine ⟨ho.trans hrd.1, ?_⟩
  rw [hrd.2] at hq
  exact hq

/-- Witness for C5: the spec scenario `[Launching, Failed("crash loop")]` —
the loop ends on tick 1 with the failed result whose message is exactly
"crash loop", after exactly 2 queries. -/
theorem waitForFinalState_failed_stops_witness :
    ((∀ i, i < 1 → isNonTerminalOk (pollsFailedW i) = true)
        ∧ pollsFailedW 1 = .ok ⟨"failed", "crash loop"⟩
        ∧ (⟨"failed", "crash loop"⟩ : PollResult).state = state.failed ∧ 1 < 300)
      ∧ ((waitForFinalState pollsFailedW).outcome = .done false "crash loop"
          ∧ (waitForFinalState pollsFailedW).queries = 1 + 1) :=
  ⟨⟨by decide, rfl, rfl, by decide⟩,
    waitForFinalState_failed_stops pollsFailedW 1 ⟨"failed", "crash loop"⟩
      (by decide) rfl rfl (by decide)⟩

/-- C6 counterexample: the claim says a tick whose query fails is retried on
the next tick. On the concrete sequence whose tick-0 query rejects with
"connection refused" and whose tick 1 would report ready, the loop performs
exactly one query — tick 1 is never polled, so there is no retry — and the
rejection propagates out of the loop as-is (no bounded consecutive-failure
count, no connectivity-message failed result). -/
theorem waitForFinalState_no_retry_counterexample :
    waitForFinalState pollsTransportCex = ⟨.exn "connection refused", 1, [], []⟩ := by
  decide

/-- C6 amended: a tick whose query fails is not retried — the rejection
propagates immediately out of the polling loop (ending the attempt with the
transport error's own message), after exactly `k + 1` queries when it
happens on tick `k`. -/
theorem waitForFinalState_query_failure_propagates
    (polls : Nat → Except String PollResult) (k : Nat) (e : String)
    (h1 : ∀ i, i < k → isNonTerminalOk (polls i) = true)
    (h2 : polls k = .error e) (h4 : k < 300) :
    (waitForFinalState polls).outcome = .exn e
      ∧ (waitForFinalState polls).queries = k + 1 := by
  obtain ⟨seen', ho, hq⟩ := waitForFinalStateAux_skip polls k (5 * 60) 0 []
    (by intro i hi; simpa using h1 i hi) (by omega)
  obtain ⟨g, hg⟩ : ∃ g, 5 * 60 - k = g + 1 := ⟨5 * 60 - k - 1, by omega⟩
  rw [hg] at ho hq
  have hrd := waitForFinalStateAux_error polls g seen' (0 + k) e (by simpa using h2)
  refine ⟨ho.trans hrd.1, ?_⟩
  rw [hrd.2] at hq
  exact hq

/-- Witness for C6 amended: one non-terminal tick, then a rejected query on
tick 1: the attempt ends with the propagated rejection after 2 queries. -/
theorem waitForFinalState_query_failure_propagates_witness :
    ((∀ i, i < 1 → isNonTerminalOk (pollsTransportW i) = true)
        ∧ pollsTransportW 1 = .error "econnrefused" ∧ 1 < 300)
      ∧ ((waitForFinalState pollsTransportW).outcome = .exn "econnrefused"
          ∧ (waitForFinalState pollsTransportW).queries = 1 + 1) :=
  ⟨⟨by decide, rfl, by decide⟩,
    waitForFinalState_query_failure_propagates pollsTransportW 1 "econnrefused"
      (by decide) rfl (by decide)⟩

/-- C1 counterexample: the claim says that with cancellation raised between
tick 0 and tick 1 the loop performs no query after tick 0, and the outcome
is a distinct Cancelled terminal. On the concrete sequence
`[activating, ready, ...]` with cancellation raised between ticks 0 and 1,
the code performs a second query (queries = 2) and the attempt completes as
an ordinary success (`waitForUp` returns without throwing — there is no
Cancelled outcome anywhere); only the one-teardown-invocation part holds. -/
theorem waitForUp_cancel_counterexample :
    (waitForUp pollsCancelCex (some 0)).queries = 2
      ∧ (waitForUp pollsCancelCex (some 0)).thrown = none
      ∧ (waitForUp pollsCancelCex (some 0)).downCommandInvocations = 1 := by
  decide

/-- C1 amended: a cancellation signal raised between tick `k` and `k + 1`
triggers exactly one invocation of the `okteto.down` command (best-effort —
its own success or failure is not even consulted), but the polling loop does
not stop: it performs exactly the queries it would have performed without
cancellation, and the attempt's outcome is whatever the poll results
dictate (Ready / Failed / TimedOut), identical to the uncancelled run;
there is no Cancelled terminal outcome. -/
theorem waitForUp_cancel_one_teardown (polls : Nat → Except String PollResult)
    (k : Nat) :
    (waitForUp polls (some k)).downCommandInvocations = 1
      ∧ (waitForUp polls (some k)).queries = (waitForFinalState polls).queries
      ∧ (waitForUp polls (some k)).thrown = (waitForUp polls none).thrown := by
  cases h : (waitForFinalState polls).outcome with
  | done r m => cases r <;> simp [waitForUp, h]
  | exn e => simp [waitForUp, h]
  | fuelOut => simp [waitForUp, h]

/-- C7: in `upCommand`, when the loaded manifest has no namespace, a cluster
context of `n` makes the launch happen with `(n, manifest.name)`, and an
absent cluster context shows the user-facing context error and never
launches. -/
theorem upCommand_namespace_resolution (m : Manifest) (n : String)
    (h : m.«namespace» = none) :
    upCommand (.ok m) (some n) = .launched n m.name
      ∧ upCommand (.ok m) none
          = .contextError "Couldn't detect your current Kubernetes context." := by
  simp [upCommand, h]

/-- Witness for C7: the spec scenario — manifest `{name: "app", namespace:
null}` with cluster context "dev" launches with `("dev", "app")`; with no
cluster context, the error is shown instead. -/
theorem upCommand_namespace_resolution_witness :
    ((⟨"app", none⟩ : Manifest).«namespace» = none)
      ∧ (upCommand (.ok ⟨"app", none⟩) (some "dev") = .launched "dev" "app"
          ∧ upCommand (.ok ⟨"app", none⟩) none
              = .contextError "Couldn't detect your current Kubernetes context.") :=
  ⟨rfl, upCommand_namespace_resolution ⟨"app", none⟩ "dev" rfl⟩

/-- C8: when loading the manifest throws, `upCommand` reports the
configuration error (via `onOktetoFailed`) and the orchestrator launch is
never invoked on that attempt. -/
theorem upCommand_load_failure_no_launch (e : String) (cns : Option String) :
    upCommand (.error e) cns
        = .configError ("Okteto: Up failed to load your Okteto manifest: " ++ e)
      ∧ ∀ ns nm, upCommand (.error e) cns ≠ .launched ns nm := by
  refine ⟨rfl, fun ns nm => ?_⟩
  simp [upCommand]

/-- C9: with `handleErr = true`, `installCmd` displays the success
notification even when `okteto.install` rejects (the error is only shown as
a separate error message); the success message is suppressed exactly when
`handleErr = false`, in which case the error propagates to the caller. -/
theorem installCmd_success_message_despite_error (upgrade : Bool) (e : String) :
    (installCmd upgrade true (.error e)).infoMessageShown
        = some (if upgrade then "Okteto was successfully upgraded"
                else "Okteto was successfully installed")
      ∧ (installCmd upgrade false (.error e)).infoMessageShown = none
      ∧ (installCmd upgrade false (.error e)).thrown
          = some ("Okteto was not installed: " ++ e) := by
  cases upgrade <;> simp [installCmd]

/-- C10: when `okteto.down` rejects, `downCommand` leaves `activeManifest`
unchanged — so a subsequent `getManifestOrAsk` returns the same manifest
path without prompting — and `activeManifest` is set to the empty string
only after a successful teardown. -/
theorem downCommand_activeManifest_frame (a e : String) (picked : Option String)
    (h : a ≠ "") :
    (downCommand a (.error e)).activeManifest = a
      ∧ getManifestOrAsk (downCommand a (.error e)).activeManifest picked = some a
      ∧ (downCommand a (.ok ())).activeManifest = "" := by
  refine ⟨rfl, ?_, rfl⟩
  simp [downCommand, getManifestOrAsk, h]

/-- Witness for C10: with the active manifest "/w/okteto.yml" and a failing
teardown, the tracker keeps "/w/okteto.yml" and the next down command reuses
it without prompting; a successful teardown clears it. -/
theorem downCommand_activeManifest_frame_witness :
    (("/w/okteto.yml" : String) ≠ "")
      ∧ ((downCommand "/w/okteto.yml" (.error "boom")).activeManifest = "/w/okteto.yml"
          ∧ getManifestOrAsk (downCommand "/w/okteto.yml" (.error "boom")).activeManifest none
              = some "/w/okteto.yml"
          ∧ (downCommand "/w/okteto.yml" (.ok ())).activeManifest = "") :=
  ⟨by decide, downCommand_activeManifest_frame "/w/okteto.yml" "boom" none (by decide)⟩

end Okteto
